import Mathlib

/-!
Shallow embedding of the `smack` impact-detection pipeline
(`src/detector.rs` and the broadcast loop of `src/main.rs`).

Numeric modelling: every `f64` value occurring in the program is a dyadic
rational, and the decimal constants of the source (`0.9`, `0.1`, `0.999`,
`0.001`, `2.0`, `1.0`, `0.3`) are modelled by the exact rationals the
source text denotes; arithmetic is exact rational arithmetic.  The sample
magnitude `sqrt(x*x + y*y + z*z)` is modelled by passing the magnitude
`mag` to the step function together with the defining property
`0 ≤ mag ∧ mag * mag = x*x + y*y + z*z` where a claim mentions it.
`samples_seen` (`u64`) and `cooldown_remaining` (`u32`) are modelled as `ℕ`:
`samples_seen` only ever increments by one per call and `cooldown_remaining`
stays in `{0, …, 50}`, so no run short of 2^64 steps can overflow either.
-/

namespace Smack

/-- Enum `Severity` from `detector.rs`: the three impact tiers. -/
inductive Severity where
  | Light
  | Medium
  | Hard
deriving DecidableEq

/-- Method `Severity::as_str` from `detector.rs`. -/
def Severity.as_str : Severity → String
  | Severity.Light => "light"
  | Severity.Medium => "medium"
  | Severity.Hard => "hard"

/-- Method `Severity::undos` from `detector.rs`. -/
def Severity.undos : Severity → ℕ
  | Severity.Light => 1
  | Severity.Medium => 3
  | Severity.Hard => 5

/-- Struct `HitEvent` from `detector.rs`. -/
structure HitEvent where
  severity : Severity
  amplitude : ℚ
deriving DecidableEq

/-- State struct `Detector` from `detector.rs`. -/
structure Detector where
  baseline : ℚ
  samples_seen : ℕ
  cooldown_remaining : ℕ
deriving DecidableEq

/-- Constructor `Detector::new`: baseline 1.0 (~1g at rest), nothing seen, no cooldown. -/
def Detector.new : Detector :=
  { baseline := 1, samples_seen := 0, cooldown_remaining := 0 }

/-- The threshold cascade of `Detector::process` (lines 76–93 of
`detector.rs`), hoisted into its own definition: classify an excess value. -/
def classify (excess : ℚ) : Option HitEvent :=
  if excess > 2 then
    some { severity := Severity.Hard, amplitude := excess }
  else if excess > 1 then
    some { severity := Severity.Medium, amplitude := excess }
  else if excess > 0.3 then
    some { severity := Severity.Light, amplitude := excess }
  else
    none

/-- Function `Detector::process` from `detector.rs`, with the sample magnitude
`mag = sqrt(x*x + y*y + z*z)` as input.  Returns the updated state and the
optional emitted event. -/
def Detector.process (d : Detector) (mag : ℚ) : Detector × Option HitEvent :=
  if d.samples_seen < 100 then
    ({ baseline := d.baseline * 0.9 + mag * 0.1,
       samples_seen := d.samples_seen + 1,
       cooldown_remaining := d.cooldown_remaining }, none)
  else if d.cooldown_remaining > 0 then
    ({ baseline := d.baseline * 0.999 + mag * 0.001,
       samples_seen := d.samples_seen + 1,
       cooldown_remaining := d.cooldown_remaining - 1 }, none)
  else
    let excess := mag - d.baseline
    let result := classify excess
    ({ baseline := d.baseline * 0.999 + mag * 0.001,
       samples_seen := d.samples_seen + 1,
       cooldown_remaining := if result.isSome then 50 else d.cooldown_remaining },
     result)

/-- Run the detector over a list of sample magnitudes, collecting the
per-sample outputs in order. -/
def Detector.runMags : Detector → List ℚ → Detector × List (Option HitEvent)
  | d, [] => (d, [])
  | d, m :: ms =>
    match d.process m with
    | (d1, r) =>
      match d1.runMags ms with
      | (d2, rs) => (d2, r :: rs)

/-- Round a rational to the nearest integer, ties to even — the rounding
Rust's fixed-precision float formatting performs. -/
def roundHalfEven (q : ℚ) : ℤ :=
  if q - ⌊q⌋ < 1/2 then ⌊q⌋
  else if q - ⌊q⌋ > 1/2 then ⌊q⌋ + 1
  else if ⌊q⌋ % 2 = 0 then ⌊q⌋ else ⌊q⌋ + 1

/-- Decimal digits of `n`, left-padded with zeros to width 4: the fractional
part of 4-place fixed formatting. -/
def pad4 (n : ℕ) : String :=
  String.mk (List.replicate (4 - (toString n).length) '0') ++ toString n

/-- Rust `\x7b:.4\x7d` formatting of an `f64`, on the exact rational model:
the value rounded to 4 decimal places, always showing 4 fractional digits. -/
def formatFixed4 (q : ℚ) : String :=
  (if roundHalfEven (q * 10000) < 0 then "-" else "")
    ++ toString ((roundHalfEven (q * 10000)).natAbs / 10000)
    ++ "." ++ pad4 ((roundHalfEven (q * 10000)).natAbs % 10000)

/-- The JSON text built once per event in `main.rs` (lines 84–89). -/
def HitEvent.toJson (e : HitEvent) : String :=
  "\x7b\"severity\":\"" ++ e.severity.as_str
    ++ "\",\"amplitude\":" ++ formatFixed4 e.amplitude
    ++ ",\"undos\":" ++ toString e.severity.undos ++ "\x7d"

/-- What `writeln!(stream, ..., json)` sends to one subscriber: the JSON
line terminated by a newline. -/
def HitEvent.record (e : HitEvent) : String := e.toJson ++ "\n"

/-- One connected client, as the broadcast loop sees it: an identifier and
whether a write to it succeeds (`writeln!` returning `Ok` vs `Err`). -/
structure Subscriber where
  id : ℕ
  writeOk : Bool
deriving DecidableEq

/-- The `clients.retain_mut` loop of `main.rs` (lines 102–115): attempt to
write `txt` to each client present in the list; keep clients whose write
succeeds, drop clients whose write fails, and collect the deliveries made
(client id paired with the text it received). -/
def broadcastAux (txt : String) : List Subscriber → List Subscriber × List (ℕ × String)
  | [] => ([], [])
  | s :: ss =>
    let rest := broadcastAux txt ss
    if s.writeOk then (s :: rest.1, (s.id, txt) :: rest.2)
    else (rest.1, rest.2)

/-- Broadcast of one event over the registry: the event is serialized once
and the serialized record is offered to every client. -/
def broadcast (e : HitEvent) (clients : List Subscriber) :
    List Subscriber × List (ℕ × String) :=
  broadcastAux e.record clients

/-! ### Helper lemmas -/

theorem process_calibration (d : Detector) (m : ℚ) (h : d.samples_seen < 100) :
    d.process m = ({ baseline := d.baseline * 0.9 + m * 0.1,
                     samples_seen := d.samples_seen + 1,
                     cooldown_remaining := d.cooldown_remaining }, none) := by
  simp [Detector.process, h]

theorem process_cooldown (d : Detector) (m : ℚ) (h1 : ¬ d.samples_seen < 100)
    (h2 : 0 < d.cooldown_remaining) :
    d.process m = ({ baseline := d.baseline * 0.999 + m * 0.001,
                     samples_seen := d.samples_seen + 1,
                     cooldown_remaining := d.cooldown_remaining - 1 }, none) := by
  simp [Detector.process, h1, h2]

theorem process_armed (d : Detector) (m : ℚ) (h1 : ¬ d.samples_seen < 100)
    (h2 : d.cooldown_remaining = 0) :
    d.process m =
      ({ baseline := d.baseline * 0.999 + m * 0.001,
         samples_seen := d.samples_seen + 1,
         cooldown_remaining := if (classify (m - d.baseline)).isSome then 50 else 0 },
       classify (m - d.baseline)) := by
  simp [Detector.process, h1, h2]

theorem classify_hard {e : ℚ} (h : 2 < e) :
    classify e = some { severity := Severity.Hard, amplitude := e } := by
  simp [classify, h]

theorem classify_medium {e : ℚ} (h1 : 1 < e) (h2 : e ≤ 2) :
    classify e = some { severity := Severity.Medium, amplitude := e } := by
  simp [classify, h1, not_lt.mpr h2]

theorem classify_light {e : ℚ} (h1 : (0.3 : ℚ) < e) (h2 : e ≤ 1) :
    classify e = some { severity := Severity.Light, amplitude := e } := by
  have h3 : ¬ (2 : ℚ) < e := by linarith
  simp [classify, h1, h3, not_lt.mpr h2]

theorem classify_none {e : ℚ} (h : e ≤ (0.3 : ℚ)) : classify e = none := by
  have h1 : ¬ (2 : ℚ) < e := by norm_num at h ⊢; linarith
  have h2 : ¬ (1 : ℚ) < e := by norm_num at h ⊢; linarith
  simp [classify, h1, h2, not_lt.mpr h]

theorem runMags_nil (d : Detector) : d.runMags [] = (d, []) := rfl

theorem runMags_cons (d : Detector) (m : ℚ) (ms : List ℚ) :
    d.runMags (m :: ms) =
      (((d.process m).1.runMags ms).1,
       (d.process m).2 :: ((d.process m).1.runMags ms).2) := by
  simp [Detector.runMags]

/-- From a state with baseline exactly 1 and no pending cooldown, a sample of
magnitude 1 leaves the baseline at 1, emits nothing and keeps cooldown 0,
in the calibration phase and afterwards alike. -/
theorem process_one_fixed (k : ℕ) :
    (Detector.mk 1 k 0).process 1 = (Detector.mk 1 (k + 1) 0, none) := by
  unfold Detector.process classify
  split <;> norm_num

/-- Feeding `n` samples of magnitude 1 from baseline 1, cooldown 0 keeps the
state at baseline 1, cooldown 0 and produces no event. -/
theorem runMags_replicate_one (n : ℕ) : ∀ k : ℕ,
    (Detector.mk 1 k 0).runMags (List.replicate n 1) =
      (Detector.mk 1 (k + n) 0, List.replicate n none) := by
  induction n with
  | zero => intro k; simp [runMags_nil]
  | succ n ih =>
    intro k
    rw [List.replicate_succ, runMags_cons, process_one_fixed, ih (k + 1)]
    simp [List.replicate_succ]
    omega

/-- Exhaustive case analysis of the threshold cascade. -/
theorem classify_cases (e : ℚ) :
    (2 < e ∧ classify e = some { severity := Severity.Hard, amplitude := e })
    ∨ (1 < e ∧ e ≤ 2 ∧ classify e = some { severity := Severity.Medium, amplitude := e })
    ∨ ((0.3 : ℚ) < e ∧ e ≤ 1 ∧ classify e = some { severity := Severity.Light, amplitude := e })
    ∨ (e ≤ (0.3 : ℚ) ∧ classify e = none) := by
  rcases lt_or_le 2 e with h | h
  · exact Or.inl ⟨h, classify_hard h⟩
  rcases lt_or_le 1 e with h1 | h1
  · exact Or.inr (Or.inl ⟨h1, h, classify_medium h1 h⟩)
  rcases lt_or_le (0.3 : ℚ) e with h2 | h2
  · exact Or.inr (Or.inr (Or.inl ⟨h2, h1, classify_light h2 h1⟩))
  · exact Or.inr (Or.inr (Or.inr ⟨h2, classify_none h2⟩))

/-- Any classified event carries the excess as its amplitude. -/
theorem classify_amplitude {x : ℚ} {e : HitEvent} (h : classify x = some e) :
    e.amplitude = x := by
  unfold classify at h
  repeat' split at h
  · cases Option.some_inj.mp h; rfl
  · cases Option.some_inj.mp h; rfl
  · cases Option.some_inj.mp h; rfl
  · exact absurd h (by simp)

/-- Every call to `process` increments `samples_seen` by exactly one. -/
theorem process_samples_succ (d : Detector) (m : ℚ) :
    (d.process m).1.samples_seen = d.samples_seen + 1 := by
  unfold Detector.process
  split
  · rfl
  · split
    · rfl
    · rfl

theorem classify_eq_none_iff (e : ℚ) : classify e = none ↔ e ≤ (0.3 : ℚ) := by
  constructor
  · intro h
    rcases classify_cases e with ⟨_, hcl⟩ | ⟨_, _, hcl⟩ | ⟨_, _, hcl⟩ | ⟨h2, _⟩ <;> simp_all
  · exact classify_none

/-- Running any magnitudes through a post-calibration detector whose pending
cooldown covers the whole list yields no events, decrements the cooldown by
the list length and increments `samples_seen` by the list length. -/
theorem runMags_cooldown : ∀ (mags : List ℚ) (d : Detector),
    100 ≤ d.samples_seen → mags.length ≤ d.cooldown_remaining →
    (d.runMags mags).2 = List.replicate mags.length none ∧
    (d.runMags mags).1.cooldown_remaining = d.cooldown_remaining - mags.length ∧
    (d.runMags mags).1.samples_seen = d.samples_seen + mags.length := by
  intro mags
  induction mags with
  | nil => intro d h1 h2; simp [runMags_nil]
  | cons m ms ih =>
    intro d h1 h2
    have hc : 0 < d.cooldown_remaining := by simp at h2; omega
    rw [runMags_cons, process_cooldown d m (not_lt.mpr h1) hc]
    obtain ⟨e1, e2, e3⟩ := ih
      { baseline := d.baseline * 0.999 + m * 0.001,
        samples_seen := d.samples_seen + 1,
        cooldown_remaining := d.cooldown_remaining - 1 }
      (by simp; omega) (by simp at h2 ⊢; omega)
    refine ⟨?_, ?_, ?_⟩
    · simp [List.replicate_succ, e1]
    · rw [e2]; simp; omega
    · rw [e3]; simp; omega

/-! ### Claims -/

/-- C1: in the armed state (`samples_seen ≥ 100`, `cooldown_remaining = 0`),
classification of the excess uses strict comparisons against the fixed
tiers: excess > 2.0 gives Hard; 1.0 < excess ≤ 2.0 gives Medium;
0.3 < excess ≤ 1.0 gives Light; excess ≤ 0.3 gives no event.  A value
exactly at 2.0, 1.0 or 0.3 does not reach the higher tier. -/
theorem C1_armed_strict_tiers (d : Detector) (mag : ℚ)
    (hs : 100 ≤ d.samples_seen) (hc : d.cooldown_remaining = 0) :
    ((d.process mag).2 = some { severity := Severity.Hard, amplitude := mag - d.baseline }
        ↔ 2 < mag - d.baseline) ∧
    ((d.process mag).2 = some { severity := Severity.Medium, amplitude := mag - d.baseline }
        ↔ 1 < mag - d.baseline ∧ mag - d.baseline ≤ 2) ∧
    ((d.process mag).2 = some { severity := Severity.Light, amplitude := mag - d.baseline }
        ↔ (0.3 : ℚ) < mag - d.baseline ∧ mag - d.baseline ≤ 1) ∧
    ((d.process mag).2 = none ↔ mag - d.baseline ≤ (0.3 : ℚ)) := by
  rw [process_armed d mag (not_lt.mpr hs) hc]
  rcases classify_cases (mag - d.baseline) with ⟨h, hcl⟩ | ⟨h1, h2, hcl⟩ | ⟨h1, h2, hcl⟩ | ⟨h, hcl⟩ <;>
    rw [hcl] <;>
    refine ⟨⟨fun he => ?_, fun he => ?_⟩, ⟨fun he => ?_, fun he => ?_⟩,
            ⟨fun he => ?_, fun he => ?_⟩, ⟨fun he => ?_, fun he => ?_⟩⟩ <;>
    simp_all <;> linarith

/-- C2: in the armed state, the excess is the magnitude minus the pre-update
baseline, the baseline is then slow-updated (0.999/0.001) whether or not an
event is produced, and the classification uses the pre-update excess. -/
theorem C2_pre_update_excess (d : Detector) (mag : ℚ)
    (hs : 100 ≤ d.samples_seen) (hc : d.cooldown_remaining = 0) :
    (d.process mag).2 = classify (mag - d.baseline) ∧
    (d.process mag).1.baseline = d.baseline * 0.999 + mag * 0.001 ∧
    (∀ e : HitEvent, (d.process mag).2 = some e → e.amplitude = mag - d.baseline) := by
  rw [process_armed d mag (not_lt.mpr hs) hc]
  exact ⟨rfl, rfl, fun e he => classify_amplitude he⟩

/-- C2 witness: concrete armed state (baseline 1, 120 samples seen), sample
magnitude 2.5: classification sees excess 1.5, and baseline moves to
0.999 + 0.0025. -/
theorem C2_pre_update_excess_witness :
    ((Detector.mk 1 120 0).process 2.5).2 = classify ((2.5 : ℚ) - 1) ∧
    ((Detector.mk 1 120 0).process 2.5).1.baseline = 1 * 0.999 + 2.5 * 0.001 ∧
    (∀ e : HitEvent, ((Detector.mk 1 120 0).process 2.5).2 = some e →
        e.amplitude = (2.5 : ℚ) - 1) :=
  C2_pre_update_excess (Detector.mk 1 120 0) 2.5 (by norm_num) rfl

/-- C1 witness: concrete armed state (baseline 1, 100 samples seen), sample
magnitude 3: excess is exactly 2.0, so the event is Medium, not Hard. -/
theorem C1_armed_strict_tiers_witness :
    ((Detector.mk 1 100 0).process 3).2
      = some { severity := Severity.Medium, amplitude := 2 } := by
  have h := (C1_armed_strict_tiers (Detector.mk 1 100 0) 3 (by norm_num) rfl).2.1
  norm_num at h
  exact h

/-- C3: while `samples_seen < 100` (calibration), no event is emitted
whatever the magnitude, the baseline is fast-updated
(`0.9·baseline + 0.1·magnitude` with `magnitude = sqrt(x²+y²+z²)`, stated
via `0 ≤ mag ∧ mag·mag = x·x+y·y+z·z`), `samples_seen` increments; and the
phase is never re-entered: any state with `samples_seen ≥ 100` still has
`samples_seen ≥ 100` after any further call. -/
theorem C3_calibration_phase (d : Detector) (x y z mag : ℚ)
    (hmag : 0 ≤ mag) (hsq : mag * mag = x * x + y * y + z * z)
    (hs : d.samples_seen < 100) :
    (d.process mag).2 = none ∧
    (d.process mag).1.baseline = d.baseline * 0.9 + mag * 0.1 ∧
    (d.process mag).1.samples_seen = d.samples_seen + 1 ∧
    (∀ (d' : Detector) (m' : ℚ), 100 ≤ d'.samples_seen →
        100 ≤ (d'.process m').1.samples_seen) := by
  rw [process_calibration d mag hs]
  refine ⟨rfl, rfl, rfl, fun d' m' h' => ?_⟩
  rw [process_samples_succ]
  omega

/-- C3 witness: fresh detector, sample (0, 3, 4) of magnitude 5: no event,
fast baseline update. -/
theorem C3_calibration_phase_witness :
    (Detector.new.process 5).2 = none ∧
    (Detector.new.process 5).1.baseline = 1 * 0.9 + 5 * 0.1 :=
  ⟨(C3_calibration_phase Detector.new 0 3 4 5 (by norm_num) (by norm_num)
      (by norm_num [Detector.new])).1,
   by
    have h := (C3_calibration_phase Detector.new 0 3 4 5 (by norm_num) (by norm_num)
      (by norm_num [Detector.new])).2.1
    simpa [Detector.new] using h⟩

/-- C4: an armed call that emits an event sets `cooldown_remaining` to
exactly 50; every post-calibration call made with positive cooldown emits
nothing, decrements the cooldown by one and slow-updates the baseline; and
after the 50 calls that follow the emission (whatever their magnitudes) the
cooldown is spent and the 51st call emits an event exactly when its excess
exceeds 0.3. -/
theorem C4_cooldown_window (d : Detector) (mag : ℚ) (e : HitEvent)
    (hs : 100 ≤ d.samples_seen) (hc : d.cooldown_remaining = 0)
    (hemit : (d.process mag).2 = some e) :
    (d.process mag).1.cooldown_remaining = 50 ∧
    (∀ (d' : Detector) (m : ℚ), 100 ≤ d'.samples_seen → 0 < d'.cooldown_remaining →
        (d'.process m).2 = none ∧
        (d'.process m).1.cooldown_remaining = d'.cooldown_remaining - 1 ∧
        (d'.process m).1.baseline = d'.baseline * 0.999 + m * 0.001) ∧
    (∀ mags : List ℚ, mags.length = 50 →
        ((d.process mag).1.runMags mags).2 = List.replicate 50 none ∧
        ((d.process mag).1.runMags mags).1.cooldown_remaining = 0 ∧
        (∀ m51 : ℚ,
          ((((d.process mag).1.runMags mags).1.process m51).2 ≠ none ↔
            (0.3 : ℚ) < m51 - ((d.process mag).1.runMags mags).1.baseline))) := by
  have h1 : ¬ d.samples_seen < 100 := not_lt.mpr hs
  have hcool : (d.process mag).1.cooldown_remaining = 50 := by
    rw [process_armed d mag h1 hc] at hemit ⊢
    simp only at hemit ⊢
    rw [hemit]
    rfl
  have hsamp : (d.process mag).1.samples_seen = d.samples_seen + 1 :=
    process_samples_succ d mag
  refine ⟨hcool, ?_, ?_⟩
  · intro d' m hs' hc'
    rw [process_cooldown d' m (not_lt.mpr hs') hc']
    exact ⟨rfl, rfl, rfl⟩
  · intro mags hlen
    obtain ⟨e1, e2, e3⟩ := runMags_cooldown mags (d.process mag).1
      (by omega) (by omega)
    have hcd2 : ((d.process mag).1.runMags mags).1.cooldown_remaining = 0 := by omega
    have hs2 : ¬ ((d.process mag).1.runMags mags).1.samples_seen < 100 := by omega
    refine ⟨by rw [e1, hlen], hcd2, fun m51 => ?_⟩
    rw [process_armed _ m51 hs2 hcd2]
    simp only [ne_eq, classify_eq_none_iff, not_le]

/-- C4 witness: from the armed state (baseline 1, 100 samples), magnitude 3
emits a Medium event and the cooldown becomes 50. -/
theorem C4_cooldown_window_witness :
    ((Detector.mk 1 100 0).process 3).1.cooldown_remaining = 50 :=
  (C4_cooldown_window (Detector.mk 1 100 0) 3
    { severity := Severity.Medium, amplitude := 2 }
    (by norm_num) rfl (by norm_num [Detector.process, classify])).1

/-- An emitted event always comes from the armed branch: it is the
classification of the pre-update excess. -/
theorem process_event_classify {d : Detector} {m : ℚ} {e : HitEvent}
    (h : (d.process m).2 = some e) : classify (m - d.baseline) = some e := by
  unfold Detector.process at h
  split at h
  · simp at h
  · split at h
    · simp at h
    · exact h

/-- One `process` step preserves positivity of the baseline (for nonnegative
magnitudes) and the fact that a pending cooldown only exists after
calibration. -/
theorem process_invariant (d : Detector) (m : ℚ) (hm : 0 ≤ m)
    (h1 : 0 < d.baseline) (h2 : 0 < d.cooldown_remaining → 100 ≤ d.samples_seen) :
    0 < (d.process m).1.baseline ∧
    (0 < (d.process m).1.cooldown_remaining → 100 ≤ (d.process m).1.samples_seen) := by
  by_cases hlt : d.samples_seen < 100
  · rw [process_calibration d m hlt]
    refine ⟨by show 0 < d.baseline * 0.9 + m * 0.1; linarith, fun hcp => ?_⟩
    exact absurd (h2 hcp) (by omega)
  · by_cases hcd : 0 < d.cooldown_remaining
    · rw [process_cooldown d m hlt hcd]
      refine ⟨by show 0 < d.baseline * 0.999 + m * 0.001; linarith, fun _ => ?_⟩
      show 100 ≤ d.samples_seen + 1
      omega
    · have hc0 : d.cooldown_remaining = 0 := by omega
      rw [process_armed d m hlt hc0]
      refine ⟨by show 0 < d.baseline * 0.999 + m * 0.001; linarith, fun _ => ?_⟩
      show 100 ≤ d.samples_seen + 1
      omega

/-- The invariant of `process_invariant`, carried over a whole run. -/
theorem runMags_invariant : ∀ (mags : List ℚ) (d : Detector),
    (∀ m ∈ mags, 0 ≤ m) → 0 < d.baseline →
    (0 < d.cooldown_remaining → 100 ≤ d.samples_seen) →
    0 < (d.runMags mags).1.baseline ∧
    (0 < (d.runMags mags).1.cooldown_remaining →
      100 ≤ (d.runMags mags).1.samples_seen) := by
  intro mags
  induction mags with
  | nil => intro d _ h1 h2; exact ⟨h1, h2⟩
  | cons m ms ih =>
    intro d hm h1 h2
    rw [runMags_cons]
    obtain ⟨g1, g2⟩ := process_invariant d m (hm m (by simp)) h1 h2
    exact ih (d.process m).1 (fun x hx => hm x (by simp [hx])) g1 g2

/-- C5 counterexample: calibrating with 150 samples of magnitude 1.0 leaves
the baseline at exactly 1.0, so the sample (3, 0, 0) (magnitude 3) has
excess exactly 2.0; by strict comparison this classifies as Medium, not
Hard as the claim states. -/
theorem C5_counterexample :
    ((Detector.new.runMags (List.replicate 150 1)).1.process 3).2
      = some { severity := Severity.Medium, amplitude := 2 } ∧
    ¬ ∃ e : HitEvent,
        ((Detector.new.runMags (List.replicate 150 1)).1.process 3).2 = some e ∧
        e.severity = Severity.Hard := by
  have hrun := runMags_replicate_one 150 0
  norm_num at hrun
  have hnew : Detector.new = Detector.mk 1 0 0 := rfl
  have hev : ((Detector.new.runMags (List.replicate 150 1)).1.process 3).2
      = some { severity := Severity.Medium, amplitude := 2 } := by
    rw [hnew, hrun]
    norm_num [Detector.process, classify]
  refine ⟨hev, ?_⟩
  rintro ⟨e, he, hsev⟩
  rw [hev] at he
  cases Option.some_inj.mp he
  exact absurd hsev (by decide)

/-- C5 amended: calibrating a fresh detector with 150 samples of magnitude
1.0 emits no event, and the following sample (3, 0, 0) (magnitude 3,
baseline exactly 1.0) emits exactly one Medium event of amplitude exactly
2.0. -/
theorem C5_end_to_end_medium :
    (Detector.new.runMags (List.replicate 150 1)).2 = List.replicate 150 none ∧
    ((Detector.new.runMags (List.replicate 150 1)).1.process 3).2
      = some { severity := Severity.Medium, amplitude := 2 } := by
  have hrun := runMags_replicate_one 150 0
  norm_num at hrun
  have hnew : Detector.new = Detector.mk 1 0 0 := rfl
  constructor
  · rw [hnew, hrun]
  · rw [hnew, hrun]
    norm_num [Detector.process, classify]

/-- C8: from a fresh detector (baseline initialized to 1.0), after any
sequence of nonnegative sample magnitudes the baseline is strictly
positive, and whenever the cooldown is positive the next processed sample
decrements it by exactly one.  (`cooldown_remaining ≥ 0` holds by its `ℕ`
type, mirroring the `u32` of the source.) -/
theorem C8_state_invariants (mags : List ℚ) (hm : ∀ m ∈ mags, 0 ≤ m) :
    Detector.new.baseline = 1 ∧
    0 < (Detector.new.runMags mags).1.baseline ∧
    (∀ m : ℚ, 0 < (Detector.new.runMags mags).1.cooldown_remaining →
      ((Detector.new.runMags mags).1.process m).1.cooldown_remaining
        = (Detector.new.runMags mags).1.cooldown_remaining - 1) := by
  obtain ⟨g1, g2⟩ := runMags_invariant mags Detector.new hm
    (by norm_num [Detector.new]) (by intro h; simp [Detector.new] at h)
  refine ⟨rfl, g1, fun m hcp => ?_⟩
  rw [process_cooldown _ m (not_lt.mpr (g2 hcp)) hcp]

/-- C8 witness: two samples of magnitude 1 from a fresh detector keep the
baseline positive. -/
theorem C8_state_invariants_witness :
    0 < (Detector.new.runMags [1, 1]).1.baseline :=
  (C8_state_invariants [1, 1] (by norm_num)).2.1

/-- C9: a constant magnitude-1.0 stream (gravity at rest), through the 100
calibration samples and any number of samples after them, emits no event:
every call returns none. -/
theorem C9_idle_stability (n : ℕ) :
    (Detector.new.runMags (List.replicate (100 + n) 1)).2
      = List.replicate (100 + n) none := by
  have hrun := runMags_replicate_one (100 + n) 0
  norm_num at hrun
  rw [show Detector.new = Detector.mk 1 0 0 from rfl, hrun]

/-- C10: every emitted event has amplitude strictly above 0.3, and its
severity is determined by the amplitude: Hard iff amplitude > 2, Medium iff
1 < amplitude ≤ 2, Light iff 0.3 < amplitude ≤ 1. -/
theorem C10_severity_from_amplitude (d : Detector) (mag : ℚ) (e : HitEvent)
    (h : (d.process mag).2 = some e) :
    (0.3 : ℚ) < e.amplitude ∧
    (e.severity = Severity.Hard ↔ 2 < e.amplitude) ∧
    (e.severity = Severity.Medium ↔ 1 < e.amplitude ∧ e.amplitude ≤ 2) ∧
    (e.severity = Severity.Light ↔ (0.3 : ℚ) < e.amplitude ∧ e.amplitude ≤ 1) := by
  have hce := process_event_classify h
  rcases classify_cases (mag - d.baseline) with
      ⟨hx, hcl⟩ | ⟨hx1, hx2, hcl⟩ | ⟨hx1, hx2, hcl⟩ | ⟨hx, hcl⟩ <;>
    rw [hcl] at hce
  · cases Option.some_inj.mp hce
    dsimp only
    exact ⟨by linarith, ⟨fun _ => hx, fun _ => rfl⟩,
      ⟨fun hh => absurd hh (by decide), fun hh => absurd hh.2 (by linarith)⟩,
      ⟨fun hh => absurd hh (by decide), fun hh => absurd hh.2 (by linarith)⟩⟩
  · cases Option.some_inj.mp hce
    dsimp only
    exact ⟨by linarith,
      ⟨fun hh => absurd hh (by decide), fun hh => absurd hh (by linarith)⟩,
      ⟨fun _ => ⟨hx1, hx2⟩, fun _ => rfl⟩,
      ⟨fun hh => absurd hh (by decide), fun hh => absurd hh.2 (by linarith)⟩⟩
  · cases Option.some_inj.mp hce
    dsimp only
    exact ⟨hx1,
      ⟨fun hh => absurd hh (by decide), fun hh => absurd hh (by linarith)⟩,
      ⟨fun hh => absurd hh (by decide), fun hh => absurd hh.1 (by linarith)⟩,
      ⟨fun _ => ⟨hx1, hx2⟩, fun _ => rfl⟩⟩
  · simp at hce

/-- C10 witness: from the armed state (baseline 1, 100 samples), magnitude 4
emits the event ⟨Hard, 3⟩, whose amplitude exceeds 0.3. -/
theorem C10_severity_from_amplitude_witness :
    (0.3 : ℚ) < (HitEvent.mk Severity.Hard 3).amplitude :=
  (C10_severity_from_amplitude (Detector.mk 1 100 0) 4 (HitEvent.mk Severity.Hard 3)
    (by norm_num [Detector.process, classify])).1

/-- The retain loop keeps exactly the clients whose write succeeds and
delivers the broadcast text to exactly those clients. -/
theorem broadcastAux_spec (txt : String) : ∀ ss : List Subscriber,
    (broadcastAux txt ss).1 = ss.filter (fun s => s.writeOk) ∧
    (broadcastAux txt ss).2
      = (ss.filter (fun s => s.writeOk)).map (fun s => (s.id, txt)) := by
  intro ss
  induction ss with
  | nil => exact ⟨rfl, rfl⟩
  | cons s ss ih =>
    cases hw : s.writeOk <;>
      simp [broadcastAux, hw, ih.1, ih.2, List.filter_cons]

/-- C6: each emitted event reaches every subscriber as the one
newline-terminated record
`\x7b"severity":"<light|medium|hard>","amplitude":<4 decimals>,"undos":<1|3|5>\x7d`
with fixed field order, key names and casing; in particular a Medium event
of amplitude 1.2345 serializes to exactly
`\x7b"severity":"medium","amplitude":1.2345,"undos":3\x7d`. -/
theorem C6_wire_format :
    HitEvent.record { severity := Severity.Medium, amplitude := 1.2345 }
      = "\x7b\"severity\":\"medium\",\"amplitude\":1.2345,\"undos\":3\x7d\n" ∧
    (∀ e : HitEvent, e.record
      = "\x7b\"severity\":\"" ++ e.severity.as_str
        ++ "\",\"amplitude\":" ++ formatFixed4 e.amplitude
        ++ ",\"undos\":" ++ toString e.severity.undos ++ "\x7d" ++ "\n") ∧
    Severity.Light.as_str = "light" ∧ Severity.Medium.as_str = "medium" ∧
    Severity.Hard.as_str = "hard" ∧
    Severity.Light.undos = 1 ∧ Severity.Medium.undos = 3 ∧
    Severity.Hard.undos = 5 ∧
    (∀ (e : HitEvent) (clients : List Subscriber) (i : ℕ) (txt : String),
        (i, txt) ∈ (broadcast e clients).2 → txt = e.record) := by
  refine ⟨?_, fun e => rfl, rfl, rfl, rfl, rfl, rfl, rfl, ?_⟩
  · have h : roundHalfEven ((1.2345 : ℚ) * 10000) = 12345 := by
      norm_num [roundHalfEven]
    rw [HitEvent.record, HitEvent.toJson, formatFixed4]
    dsimp only
    rw [h]
    decide
  · intro e clients i txt hmem
    rw [broadcast, (broadcastAux_spec e.record clients).2] at hmem
    obtain ⟨s, _, hs⟩ := List.mem_map.mp hmem
    exact (congrArg Prod.snd hs).symm

/-- C7: one broadcast over N subscribers writes the once-serialized record
to every subscriber present at its start; a subscriber whose write fails is
removed from the registry and receives nothing, every subscriber whose
write succeeds is retained unchanged and receives the record, and a failing
subscriber does not affect delivery to the rest. -/
theorem C7_broadcast_prunes_failures (e : HitEvent) (clients : List Subscriber) :
    (broadcast e clients).1 = clients.filter (fun s => s.writeOk) ∧
    (broadcast e clients).2
      = (clients.filter (fun s => s.writeOk)).map (fun s => (s.id, e.record)) ∧
    (∀ s ∈ clients, s.writeOk = false → s ∉ (broadcast e clients).1) ∧
    (∀ s ∈ clients, s.writeOk = true → (s.id, e.record) ∈ (broadcast e clients).2) := by
  obtain ⟨h1, h2⟩ := broadcastAux_spec e.record clients
  refine ⟨h1, h2, fun s _ hw hmem => ?_, fun s hs hw => ?_⟩
  · rw [broadcast] at hmem
    rw [h1] at hmem
    have := (List.mem_filter.mp hmem).2
    rw [hw] at this
    exact Bool.false_ne_true this
  · show (s.id, e.record) ∈ (broadcastAux e.record clients).2
    rw [h2]
    exact List.mem_map.mpr ⟨s, List.mem_filter.mpr ⟨hs, hw⟩, rfl⟩

end Smack
